import Mathlib

/-!
Verification of the mailvault IMAP synchronization engine.

The definitions below are a shallow embedding of the sync service
(`lib/imap-sync.js`, the `ImapSyncService` class), the sync scheduler
(`scripts/sync-scheduler.ts`, the `SyncScheduler` class) and the per-account
SQLite email store they operate on.  Pure computations (filename
sanitization, content-type detection, email parsing) are translated into
Lean functions; the stateful parts (the SQLite `emails` table with its
`INSERT OR REPLACE` upsert, the per-folder batch loop, account error
bookkeeping) are modelled as explicit state passing over concrete state
types.  Nondeterministic inputs of the code (`Date.now()`, `Math.random()`,
freshly generated cuids, IMAP fetch outcomes) are threaded in as explicit
oracle parameters.
-/

namespace MailVault

/-! ## Basic string machinery -/

/-- `startsWith l p` holds when `p` is an initial segment of `l`
(character-list version of string prefix testing). -/
def startsWith : List Char → List Char → Bool
  | _, [] => true
  | [], _ :: _ => false
  | c :: cs, p :: ps => c = p && startsWith cs ps

/-- `occursIn pat l` holds when `pat` occurs as a contiguous subsequence of
`l`; this models JavaScript's `String.prototype.includes`. -/
def occursIn (pat : List Char) : List Char → Bool
  | [] => startsWith [] pat
  | c :: cs => startsWith (c :: cs) pat || occursIn pat cs

/-- Every character of a pattern that occurs contiguously via `startsWith`
is a member of the scanned list. -/
theorem mem_of_startsWith {l p : List Char} (h : startsWith l p = true) :
    ∀ c ∈ p, c ∈ l := by
  induction p generalizing l with
  | nil => intro c hc; cases hc
  | cons q qs ih =>
    cases l with
    | nil => simp [startsWith] at h
    | cons x xs =>
      simp only [startsWith, Bool.and_eq_true, decide_eq_true_eq] at h
      intro c hc
      rcases List.mem_cons.1 hc with rfl | hc'
      · exact h.1 ▸ List.mem_cons_self _ _
      · exact List.mem_cons_of_mem _ (ih h.2 c hc')

/-- Every character of a pattern that occurs contiguously in a list is a
member of that list. -/
theorem mem_of_occursIn {pat l : List Char} (h : occursIn pat l = true) :
    ∀ c ∈ pat, c ∈ l := by
  induction l with
  | nil =>
    cases pat with
    | nil => intro c hc; cases hc
    | cons q qs => simp [occursIn, startsWith] at h
  | cons x xs ih =>
    simp only [occursIn, Bool.or_eq_true] at h
    intro c hc
    rcases h with h | h
    · exact mem_of_startsWith h c hc
    · exact List.mem_cons_of_mem _ (ih h c hc)

/-- If some character of the pattern is missing from the list, the pattern
does not occur in it. -/
theorem occursIn_eq_false_of_not_mem {pat l : List Char} {c : Char}
    (hc : c ∈ pat) (hl : c ∉ l) : occursIn pat l = false := by
  by_contra h
  exact hl (mem_of_occursIn (Bool.of_not_eq_false h) c hc)

/-! ## Filename sanitization (`ImapSyncService.saveAttachments`)

The JavaScript source sanitizes each attachment filename with
`.replace(/[^a-zA-Z0-9.\-_]/g, '_').replace(/_{2,}/g, '_').substring(0, 100)`.
-/

/-- The allow-list of the sanitizer's first `replace`: ASCII letters,
digits, `.`, `-` and `_` (the character class `[a-zA-Z0-9.\-_]`). -/
def allowListed (c : Char) : Bool :=
  ('a' ≤ c && c ≤ 'z') || ('A' ≤ c && c ≤ 'Z') || ('0' ≤ c && c ≤ '9') ||
    c = '.' || c = '-' || c = '_'

/-- Scan implementing the regex `/_{2,}/g → '_'` step: the flag records
whether the previously emitted character was an underscore, so every
maximal run of underscores is emitted as a single underscore. -/
def collapseAux : Bool → List Char → List Char
  | _, [] => []
  | prevU, c :: cs =>
    if c = '_' then
      if prevU then collapseAux true cs else '_' :: collapseAux true cs
    else c :: collapseAux false cs

/-- The regex `/_{2,}/g → '_'` step: every maximal run of two or more
underscores is collapsed to a single underscore. -/
def collapseUnderscoreRuns (l : List Char) : List Char :=
  collapseAux false l

/-- The sanitizer of `ImapSyncService.saveAttachments`:
keep allow-listed characters (replacing all others with `_`), collapse
runs of underscores, and truncate to 100 characters (`substring(0, 100)`). -/
def sanitizeFilename (s : String) : String :=
  ⟨(collapseUnderscoreRuns (s.data.map (fun c => if allowListed c then c else '_'))).take 100⟩

/-- The underscore-collapsing scan introduces no new characters. -/
theorem mem_of_mem_collapseAux :
    ∀ {l : List Char} {b : Bool} {c : Char}, c ∈ collapseAux b l → c ∈ l := by
  intro l
  induction l with
  | nil => intro b c h; cases h
  | cons x xs ih =>
    intro b c h
    unfold collapseAux at h
    by_cases hx : x = '_'
    · rw [if_pos hx] at h
      cases b with
      | true =>
        rw [if_pos rfl] at h
        exact List.mem_cons_of_mem _ (ih h)
      | false =>
        rw [if_neg (by decide : ¬ (false = true))] at h
        rcases List.mem_cons.1 h with rfl | h'
        · exact hx ▸ List.mem_cons_self _ _
        · exact List.mem_cons_of_mem _ (ih h')
    · rw [if_neg hx] at h
      rcases List.mem_cons.1 h with rfl | h'
      · exact List.mem_cons_self _ _
      · exact List.mem_cons_of_mem _ (ih h')

/-- Collapsing underscore runs introduces no new characters. -/
theorem mem_of_mem_collapseUnderscoreRuns :
    ∀ {l : List Char} {c : Char}, c ∈ collapseUnderscoreRuns l → c ∈ l :=
  fun h => mem_of_mem_collapseAux h

/-- Every character of a sanitized filename is either allow-listed or the
underscore replacement character. -/
theorem sanitizeFilename_chars (s : String) :
    ∀ c ∈ (sanitizeFilename s).data, allowListed c = true ∨ c = '_' := by
  intro c hc
  have h1 : c ∈ collapseUnderscoreRuns (s.data.map (fun c => if allowListed c then c else '_')) :=
    List.mem_of_mem_take hc
  have h2 := mem_of_mem_collapseUnderscoreRuns h1
  rcases List.mem_map.1 h2 with ⟨d, _, hd⟩
  by_cases hall : allowListed d
  · left; rw [← hd, if_pos hall]; exact hall
  · right; rw [← hd, if_neg hall]

/-- An allow-listed character is never a path separator. -/
theorem allowListed_ne_sep {c : Char} (h : allowListed c = true) :
    c ≠ '/' ∧ c ≠ '\\' := by
  constructor
  · rintro rfl; simp [allowListed] at h
  · rintro rfl; simp [allowListed] at h

/-- No character of a sanitized filename is a path separator
(`/` or `\`). -/
theorem sanitizeFilename_no_sep (s : String) :
    ∀ c ∈ (sanitizeFilename s).data, c ≠ '/' ∧ c ≠ '\\' := by
  intro c hc
  rcases sanitizeFilename_chars s c hc with h | rfl
  · exact allowListed_ne_sep h
  · refine ⟨?_, ?_⟩ <;> decide

/-- A string contains a directory-traversal sequence when `../` or `..\`
occurs in it as a contiguous substring. -/
def hasTraversalSeq (s : String) : Bool :=
  occursIn ['.', '.', '/'] s.data || occursIn ['.', '.', '\\'] s.data

/-! ## Attachment path construction (`ImapSyncService.saveAttachments`)

The attachment directory is
`path.join(process.cwd(), attachmentsBaseDir, this.accountId, emailId)` and
each payload is written to `path.join(attachmentsDir, sanitizedFilename)`.
Paths are modelled as lists of segments; `path.join` of a directory with a
single-segment name (a name containing no separator) appends the segment,
normalizing the special segments `.` and `..` the way Node's `path.join`
does. -/

/-- `path.join dir name` for a `name` containing no path separator:
`..` steps up one directory, `.` stays, any other name becomes a child
segment. -/
def resolveJoin (dir : List String) (name : String) : List String :=
  if name = ".." then dir.dropLast
  else if name = "." then dir
  else dir ++ [name]

/-- The attachment directory
`{cwd}/{ATTACHMENTS_DIR}/{accountId}/{emailId}` as a segment list. -/
def attachmentsDirSegs (cwd base : List String) (accountId emailId : String) :
    List String :=
  cwd ++ base ++ [accountId, emailId]

/-- Joining a per-message attachment directory with any single-segment name
stays below the attachment root `cwd ++ base`. -/
theorem resolveJoin_in_root (cwd base : List String) (accountId emailId name : String) :
    ∃ rest, resolveJoin (attachmentsDirSegs cwd base accountId emailId) name =
      (cwd ++ base) ++ rest := by
  unfold resolveJoin attachmentsDirSegs
  by_cases h2 : name = ".."
  · refine ⟨[accountId], ?_⟩
    rw [if_pos h2]
    rw [List.append_assoc cwd base [accountId, emailId], ← List.append_assoc]
    rw [show [accountId, emailId] = [accountId] ++ [emailId] from rfl]
    rw [← List.append_assoc, List.dropLast_concat]
  · by_cases h1 : name = "."
    · exact ⟨[accountId, emailId], by rw [if_neg h2, if_pos h1, List.append_assoc]⟩
    · exact ⟨[accountId, emailId, name], by rw [if_neg h2, if_neg h1]; simp⟩

/-- C6: for every attachment filename (in particular `"../../etc/passwd"`),
the sanitized stored filename contains no path separator and no traversal
sequence (`../` or `..\`), and joining the per-message attachment directory
with the sanitized name resolves to a location inside the attachment root
`{cwd}/{ATTACHMENTS_DIR}`. -/
theorem C6_filename_sanitization :
    (∀ s : String, ∀ c ∈ (sanitizeFilename s).data, c ≠ '/' ∧ c ≠ '\\') ∧
    (∀ s : String, hasTraversalSeq (sanitizeFilename s) = false) ∧
    (∀ (cwd base : List String) (accountId emailId s : String),
      ∃ rest, resolveJoin (attachmentsDirSegs cwd base accountId emailId)
        (sanitizeFilename s) = (cwd ++ base) ++ rest) ∧
    sanitizeFilename "../../etc/passwd" = ".._.._etc_passwd" := by
  refine ⟨sanitizeFilename_no_sep, ?_, fun cwd base a e s => resolveJoin_in_root cwd base a e _, by decide⟩
  intro s
  have hs : '/' ∉ (sanitizeFilename s).data := fun h =>
    (sanitizeFilename_no_sep s '/' h).1 rfl
  have hb : '\\' ∉ (sanitizeFilename s).data := fun h =>
    (sanitizeFilename_no_sep s '\\' h).2 rfl
  unfold hasTraversalSeq
  rw [occursIn_eq_false_of_not_mem (by decide : '/' ∈ ['.', '.', '/']) hs,
    occursIn_eq_false_of_not_mem (by decide : '\\' ∈ ['.', '.', '\\']) hb]
  rfl

/-- Witness for `C6_filename_sanitization` at concrete inputs. -/
theorem C6_filename_sanitization_witness :
    ('a' ∈ (sanitizeFilename "a/b").data ∧ ('a' ≠ '/' ∧ 'a' ≠ '\\')) ∧
    hasTraversalSeq (sanitizeFilename "../../etc/passwd") = false ∧
    (∃ rest, resolveJoin (attachmentsDirSegs ["w"] ["data", "attachments"] "acct" "cid")
      (sanitizeFilename "..") = (["w"] ++ ["data", "attachments"]) ++ rest) :=
  ⟨⟨by decide, C6_filename_sanitization.1 "a/b" 'a' (by decide)⟩,
    C6_filename_sanitization.2.1 "../../etc/passwd",
    C6_filename_sanitization.2.2.1 ["w"] ["data", "attachments"] "acct" "cid" ".."⟩

/-! ## Message parsing (`ImapSyncService.parseEmailData`)

`parseEmailData(parsed, folder, attrs)` derives the stored email record from
the `mailparser` output.  The nondeterministic fallback identifier
`` `${Date.now()}-${Math.random()}` `` is modelled by threading an explicit
`FreshId` oracle holding the values drawn from `Date.now()` and
`Math.random()`. -/

/-- One draw of `Date.now()` (milliseconds) and `Math.random()` (rendered as
its decimal string). -/
structure FreshId where
  nowMs : Nat
  rand : String
deriving DecidableEq, Repr

/-- The fallback message identifier `` `${Date.now()}-${Math.random()}` ``. -/
def fallbackMessageId (o : FreshId) : String :=
  Nat.repr o.nowMs ++ "-" ++ o.rand

/-- `Nat.digitChar` never renders the dash character. -/
theorem digitChar_ne_dash (d : Nat) : Nat.digitChar d ≠ '-' := by
  by_cases hd : d < 16
  · interval_cases d <;> decide
  · have h : Nat.digitChar d = '*' := by
      rw [Nat.digitChar.eq_def]
      rw [if_neg (by omega : ¬ d = 0), if_neg (by omega : ¬ d = 1),
        if_neg (by omega : ¬ d = 2), if_neg (by omega : ¬ d = 3),
        if_neg (by omega : ¬ d = 4), if_neg (by omega : ¬ d = 5),
        if_neg (by omega : ¬ d = 6), if_neg (by omega : ¬ d = 7),
        if_neg (by omega : ¬ d = 8), if_neg (by omega : ¬ d = 9),
        if_neg (by omega : ¬ d = 10), if_neg (by omega : ¬ d = 11),
        if_neg (by omega : ¬ d = 12), if_neg (by omega : ¬ d = 13),
        if_neg (by omega : ¬ d = 14), if_neg (by omega : ¬ d = 15)]
    rw [h]; decide

/-- Characters produced by `Nat.toDigitsCore` on top of an accumulator are
either from the accumulator or digit characters. -/
theorem mem_toDigitsCore {b : Nat} :
    ∀ (fuel n : Nat) (ds : List Char) (c : Char),
      c ∈ Nat.toDigitsCore b fuel n ds → c ∈ ds ∨ ∃ d, c = Nat.digitChar d := by
  intro fuel
  induction fuel with
  | zero => intro n ds c h; exact .inl h
  | succ f ih =>
    intro n ds c h
    simp only [Nat.toDigitsCore] at h
    by_cases h0 : n / b = 0
    · rw [if_pos h0] at h
      rcases List.mem_cons.1 h with rfl | h'
      · exact .inr ⟨n % b, rfl⟩
      · exact .inl h'
    · rw [if_neg h0] at h
      rcases ih _ _ _ h with h' | h'
      · rcases List.mem_cons.1 h' with rfl | h''
        · exact .inr ⟨n % b, rfl⟩
        · exact .inl h''
      · exact .inr h'

/-- The decimal rendering of a natural number contains no dash. -/
theorem natRepr_no_dash (n : Nat) : '-' ∉ (Nat.repr n).data := by
  intro h
  have h2 : '-' ∈ Nat.toDigitsCore 10 (n + 1) n [] := h
  rcases mem_toDigitsCore _ _ _ _ h2 with h3 | ⟨d, h3⟩
  · cases h3
  · exact digitChar_ne_dash d h3.symm

/-- Splitting a character list at a dash is unambiguous when neither prefix
contains a dash. -/
theorem append_dash_inj :
    ∀ (a b r1 r2 : List Char), '-' ∉ a → '-' ∉ b →
      a ++ '-' :: r1 = b ++ '-' :: r2 → a = b ∧ r1 = r2 := by
  intro a
  induction a with
  | nil =>
    intro b r1 r2 _ hb h
    cases b with
    | nil => simpa using h
    | cons y ys =>
      exfalso
      rw [List.nil_append, List.cons_append] at h
      exact hb ((List.cons.inj h).1 ▸ List.mem_cons_self _ _)
  | cons x xs ih =>
    intro b r1 r2 ha hb h
    cases b with
    | nil =>
      exfalso
      rw [List.nil_append, List.cons_append] at h
      exact ha ((List.cons.inj h).1 ▸ List.mem_cons_self _ _)
    | cons y ys =>
      rw [List.cons_append, List.cons_append] at h
      obtain ⟨rfl, h2⟩ := List.cons.inj h
      obtain ⟨h3, h4⟩ := ih ys r1 r2 (fun hm => ha (List.mem_cons_of_mem _ hm))
        (fun hm => hb (List.mem_cons_of_mem _ hm)) h2
      exact ⟨h3 ▸ rfl, h4⟩

/-- The character data of a fallback identifier splits as decimal digits,
a dash, then the random part. -/
theorem fallbackMessageId_data (o : FreshId) :
    (fallbackMessageId o).data = (Nat.repr o.nowMs).data ++ '-' :: o.rand.data := by
  simp [fallbackMessageId, String.instAppend, String.append]

/-- A fallback identifier is never the empty string. -/
theorem fallbackMessageId_ne_empty (o : FreshId) : fallbackMessageId o ≠ "" := by
  intro h
  have h2 := congrArg String.data h
  rw [fallbackMessageId_data] at h2
  simp at h2

/-- Fallback identifiers built from draws differing in their rendered
timestamp or in their random part are distinct. -/
theorem fallbackMessageId_inj (o1 o2 : FreshId)
    (h : Nat.repr o1.nowMs ≠ Nat.repr o2.nowMs ∨ o1.rand ≠ o2.rand) :
    fallbackMessageId o1 ≠ fallbackMessageId o2 := by
  intro heq
  have h2 := congrArg String.data heq
  rw [fallbackMessageId_data, fallbackMessageId_data] at h2
  obtain ⟨h3, h4⟩ := append_dash_inj _ _ _ _ (natRepr_no_dash _) (natRepr_no_dash _) h2
  rcases h with h | h
  · exact h (String.ext h3)
  · exact h (String.ext h4)

/-- An attachment as delivered by `mailparser`: `filename` and `content`
may be absent, `size` and `contentType` are declared metadata.  Payload
bytes are modelled as a list of byte values. -/
structure AttachmentIn where
  filename : Option String
  contentType : String
  size : Nat
  content : Option (List Nat)
deriving DecidableEq, Repr

/-- The `mailparser` output fields read by `parseEmailData`.  `none` models
an absent (`undefined`/`false`) field. -/
structure ParsedMail where
  messageId : Option String
  subject : Option String
  fromAddress : Option String
  fromName : Option String
  toAddresses : List String
  ccAddresses : List String
  bccAddresses : List String
  text : Option String
  html : Option String
  date : Option Nat
  attachments : List AttachmentIn
deriving DecidableEq, Repr

/-- The IMAP fetch attributes read by `parseEmailData` (`attrs.flags`,
`attrs.size`). -/
structure Attrs where
  flags : List String
  size : Nat
deriving DecidableEq, Repr

/-- JavaScript `x || d` on an optional string: the default is taken when
the field is absent or empty (falsy). -/
def strOrDefault (v : Option String) (d : String) : String :=
  match v with
  | some s => if s = "" then d else s
  | none => d

/-- JavaScript whitespace as removed by `String.prototype.trim`: space and
the ASCII control whitespace characters (tab through carriage return). -/
def isJsWhitespace (c : Char) : Bool :=
  c = ' ' || (9 ≤ c.toNat && c.toNat ≤ 13)

/-- JavaScript `String.prototype.trim`: strip whitespace from both ends. -/
def jsTrim (s : String) : String :=
  ⟨((s.data.dropWhile isJsWhitespace).reverse.dropWhile isJsWhitespace).reverse⟩

/-- `parsed.html && parsed.html.trim().length > 0`: the parsed message has
a truthy HTML part that is non-empty after trimming. -/
def hasHtmlPart (html : Option String) : Bool :=
  match html with
  | some h => !(h == "") && !(jsTrim h == "")
  | none => false

/-- The record assembled by `parseEmailData`, mirroring the object returned
by the JavaScript function. -/
structure EmailData where
  messageId : String
  subject : String
  fromAddress : String
  fromName : String
  toAddresses : List String
  ccAddresses : List String
  bccAddresses : List String
  bodyText : String
  bodyHtml : String
  contentType : String
  hasAttachments : Bool
  attachments : List AttachmentIn
  date : Nat
  folder : String
  flags : List String
  size : Nat
deriving DecidableEq, Repr

/-- `ImapSyncService.parseEmailData(parsed, folder, attrs)`; `o` is the
draw used for the fallback message identifier (`Date.now()`,
`Math.random()`) and for `new Date()` when the message has no date. -/
def parseEmailData (parsed : ParsedMail) (folder : String) (attrs : Attrs)
    (o : FreshId) : EmailData :=
  let messageId := strOrDefault parsed.messageId (fallbackMessageId o)
  let contentType := if hasHtmlPart parsed.html then "HTML" else "PLAIN"
  let attachments := parsed.attachments
  let hasAttachments := !attachments.isEmpty
  { messageId := messageId
    subject := strOrDefault parsed.subject ""
    fromAddress := strOrDefault parsed.fromAddress ""
    fromName := strOrDefault parsed.fromName ""
    toAddresses := parsed.toAddresses
    ccAddresses := parsed.ccAddresses
    bccAddresses := parsed.bccAddresses
    bodyText := strOrDefault parsed.text ""
    bodyHtml := strOrDefault parsed.html ""
    contentType := contentType
    hasAttachments := hasAttachments
    attachments := attachments
    date := match parsed.date with | some d => d | none => o.nowMs
    folder := folder
    flags := attrs.flags
    size := attrs.size }

/-- With a truthy HTML part, `hasHtmlPart` holds exactly when the part is
non-empty after trimming. -/
theorem hasHtmlPart_some_iff (h : String) :
    hasHtmlPart (some h) = true ↔ jsTrim h ≠ "" := by
  unfold hasHtmlPart
  constructor
  · intro hh
    simp only [Bool.and_eq_true, Bool.not_eq_true', beq_eq_false_iff_ne, ne_eq] at hh
    exact hh.2
  · intro ht
    have hne : h ≠ "" := by
      rintro rfl
      exact ht rfl
    simp only [Bool.and_eq_true, Bool.not_eq_true', beq_eq_false_iff_ne, ne_eq]
    exact ⟨hne, ht⟩

/-- C5: the derived `contentType` is a pure function of the parsed body: it
is `HTML` exactly when the parsed message has an HTML part that is
non-empty after trimming, and `PLAIN` otherwise (in particular when only a
text part exists), independent of folder, attributes, attachments and the
freshness oracle. -/
theorem C5_content_type_pure :
    (∀ (p1 p2 : ParsedMail) (f1 f2 : String) (a1 a2 : Attrs) (o1 o2 : FreshId),
      p1.html = p2.html →
      (parseEmailData p1 f1 a1 o1).contentType = (parseEmailData p2 f2 a2 o2).contentType) ∧
    (∀ (p : ParsedMail) (f : String) (a : Attrs) (o : FreshId),
      ((parseEmailData p f a o).contentType = "HTML" ↔
        ∃ h, p.html = some h ∧ jsTrim h ≠ "") ∧
      ((parseEmailData p f a o).contentType = "HTML" ∨
        (parseEmailData p f a o).contentType = "PLAIN") ∧
      (p.html = none → (parseEmailData p f a o).contentType = "PLAIN")) := by
  constructor
  · intro p1 p2 f1 f2 a1 a2 o1 o2 hhtml
    simp only [parseEmailData, hhtml]
  · intro p f a o
    refine ⟨?_, ?_, ?_⟩
    · simp only [parseEmailData]
      by_cases hh : hasHtmlPart p.html
      · rw [if_pos hh]
        simp only [true_iff]
        cases hp : p.html with
        | none => rw [hp] at hh; cases hh
        | some h =>
          rw [hp] at hh
          exact ⟨h, rfl, (hasHtmlPart_some_iff h).1 hh⟩
      · rw [if_neg hh]
        constructor
        · intro hf; exact absurd hf (by decide)
        · rintro ⟨h, hp, ht⟩
          rw [hp] at hh
          exact absurd ((hasHtmlPart_some_iff h).2 ht) hh
    · simp only [parseEmailData]
      by_cases hh : hasHtmlPart p.html
      · left; rw [if_pos hh]
      · right; rw [if_neg hh]
    · intro hp
      simp only [parseEmailData, hp, hasHtmlPart]
      rfl

/-- A parsed message with a non-empty HTML part (C5 witness data). -/
def sampleHtmlMail : ParsedMail :=
  { messageId := some "<m1@example>", subject := some "hello", fromAddress := some "a@b",
    fromName := none, toAddresses := ["c@d"], ccAddresses := [], bccAddresses := [],
    text := some "hi", html := some " <b>hi</b> ", date := some 1000, attachments := [] }

/-- A parsed message with only a text part (C5 witness data). -/
def sampleTextMail : ParsedMail :=
  { messageId := some "<m2@example>", subject := some "hello", fromAddress := some "a@b",
    fromName := none, toAddresses := ["c@d"], ccAddresses := [], bccAddresses := [],
    text := some "hi", html := none, date := some 1000, attachments := [] }

/-- Witness for `C5_content_type_pure` at concrete inputs. -/
theorem C5_content_type_pure_witness :
    (parseEmailData sampleHtmlMail "INBOX" ⟨[], 10⟩ ⟨1, "0.5"⟩).contentType =
      (parseEmailData sampleHtmlMail "Sent" ⟨["s"], 99⟩ ⟨2, "0.7"⟩).contentType ∧
    (parseEmailData sampleHtmlMail "INBOX" ⟨[], 10⟩ ⟨1, "0.5"⟩).contentType = "HTML" ∧
    (parseEmailData sampleTextMail "INBOX" ⟨[], 10⟩ ⟨1, "0.5"⟩).contentType = "PLAIN" :=
  ⟨C5_content_type_pure.1 sampleHtmlMail sampleHtmlMail "INBOX" "Sent" ⟨[], 10⟩ ⟨["s"], 99⟩
      ⟨1, "0.5"⟩ ⟨2, "0.7"⟩ rfl,
    (C5_content_type_pure.2 sampleHtmlMail "INBOX" ⟨[], 10⟩ ⟨1, "0.5"⟩).1.mpr
      ⟨" <b>hi</b> ", rfl, by decide⟩,
    (C5_content_type_pure.2 sampleTextMail "INBOX" ⟨[], 10⟩ ⟨1, "0.5"⟩).2.2 rfl⟩

/-- C10: for every parsed message, `parseEmailData` returns a non-empty
`messageId`: the Message-ID header value when a truthy header is present,
otherwise the freshly generated `Date.now()`-plus-`Math.random()` fallback;
two parses of the same header-less message under draws differing in their
rendered components yield different identifiers. -/
theorem C10_message_id_nonempty :
    (∀ (p : ParsedMail) (f : String) (a : Attrs) (o : FreshId),
      (parseEmailData p f a o).messageId ≠ "") ∧
    (∀ (p : ParsedMail) (f : String) (a : Attrs) (o : FreshId) (s : String),
      p.messageId = some s → s ≠ "" → (parseEmailData p f a o).messageId = s) ∧
    (∀ (p : ParsedMail) (f : String) (a : Attrs) (o : FreshId),
      p.messageId = none → (parseEmailData p f a o).messageId = fallbackMessageId o) ∧
    (∀ o1 o2 : FreshId,
      (Nat.repr o1.nowMs ≠ Nat.repr o2.nowMs ∨ o1.rand ≠ o2.rand) →
      fallbackMessageId o1 ≠ fallbackMessageId o2) := by
  refine ⟨?_, ?_, ?_, fallbackMessageId_inj⟩
  · intro p f a o
    cases hp : p.messageId with
    | none =>
      simp only [parseEmailData, strOrDefault, hp]
      exact fallbackMessageId_ne_empty o
    | some s =>
      simp only [parseEmailData, strOrDefault, hp]
      by_cases hs : s = ""
      · rw [if_pos hs]; exact fallbackMessageId_ne_empty o
      · rw [if_neg hs]; exact hs
  · intro p f a o s hp hs
    simp only [parseEmailData, strOrDefault, hp]
    rw [if_neg hs]
  · intro p f a o hp
    simp only [parseEmailData, strOrDefault, hp]

/-- A parsed message without a Message-ID header (C10 witness data). -/
def sampleNoIdMail : ParsedMail :=
  { messageId := none, subject := none, fromAddress := none,
    fromName := none, toAddresses := [], ccAddresses := [], bccAddresses := [],
    text := some "hi", html := none, date := none, attachments := [] }

/-- Witness for `C10_message_id_nonempty` at concrete inputs. -/
theorem C10_message_id_nonempty_witness :
    (parseEmailData sampleNoIdMail "INBOX" ⟨[], 7⟩ ⟨17000, "0.123"⟩).messageId ≠ "" ∧
    (parseEmailData sampleHtmlMail "INBOX" ⟨[], 7⟩ ⟨17000, "0.123"⟩).messageId = "<m1@example>" ∧
    (parseEmailData sampleNoIdMail "INBOX" ⟨[], 7⟩ ⟨17000, "0.123"⟩).messageId =
      fallbackMessageId ⟨17000, "0.123"⟩ ∧
    fallbackMessageId ⟨17000, "0.123"⟩ ≠ fallbackMessageId ⟨17001, "0.123"⟩ :=
  ⟨C10_message_id_nonempty.1 sampleNoIdMail "INBOX" ⟨[], 7⟩ ⟨17000, "0.123"⟩,
    C10_message_id_nonempty.2.1 sampleHtmlMail "INBOX" ⟨[], 7⟩ ⟨17000, "0.123"⟩
      "<m1@example>" rfl (by decide),
    C10_message_id_nonempty.2.2.1 sampleNoIdMail "INBOX" ⟨[], 7⟩ ⟨17000, "0.123"⟩ rfl,
    C10_message_id_nonempty.2.2.2 ⟨17000, "0.123"⟩ ⟨17001, "0.123"⟩ (Or.inl (by decide))⟩

/-! ## The per-account email store (`emails` table, `ImapSyncService.saveEmail`)

The `emails` table has `id TEXT PRIMARY KEY` (a freshly generated cuid) and
`messageId TEXT UNIQUE NOT NULL`.  `saveEmail` runs `INSERT OR REPLACE`:
SQLite deletes every existing row that conflicts with the new row on any
uniqueness constraint (`id` or `messageId`) and then inserts the new row. -/

/-- One row of the per-account `emails` table (the columns written by
`saveEmail`). -/
structure EmailRow where
  id : String
  messageId : String
  subject : String
  fromAddress : String
  fromName : String
  toAddresses : List String
  bodyText : String
  bodyHtml : String
  contentType : String
  hasAttachments : Bool
  attachmentsPath : Option (List String)
  attachments : List AttachmentIn
  folder : String
  date : Nat
  size : Nat
deriving DecidableEq, Repr

/-- The per-account email store: the list of rows of the `emails` table. -/
abbrev EmailStore := List EmailRow

/-- `INSERT OR REPLACE INTO emails`: delete every row conflicting on the
`id` primary key or the `messageId` uniqueness constraint, then insert. -/
def insertOrReplace (store : EmailStore) (row : EmailRow) : EmailStore :=
  row :: store.filter (fun r => !(r.messageId == row.messageId) && !(r.id == row.id))

/-- Number of rows carrying a given message identifier. -/
def countMsgId (store : EmailStore) (m : String) : Nat :=
  store.countP (fun r => r.messageId == m)

/-- Store states reachable from the freshly initialized (empty) `emails`
table by `INSERT OR REPLACE` writes. -/
inductive ReachableStore : EmailStore → Prop
  | init : ReachableStore []
  | step (store : EmailStore) (row : EmailRow) :
      ReachableStore store → ReachableStore (insertOrReplace store row)

/-- After an upsert, exactly one row carries the upserted message
identifier, whatever the starting store was. -/
theorem countMsgId_insertOrReplace (store : EmailStore) (row : EmailRow) :
    countMsgId (insertOrReplace store row) row.messageId = 1 := by
  unfold countMsgId insertOrReplace
  rw [List.countP_cons_of_pos _ _ (by simp)]
  have h0 : (store.filter
      (fun r => !(r.messageId == row.messageId) && !(r.id == row.id))).countP
      (fun r => r.messageId == row.messageId) = 0 := by
    rw [List.countP_eq_zero]
    intro r hr
    have := (List.mem_filter.1 hr).2
    simp only [Bool.and_eq_true, Bool.not_eq_true', beq_eq_false_iff_ne, ne_eq] at this
    simp only [beq_iff_eq]
    exact this.1
  rw [h0]

/-- A stored row that conflicts with the upserted row on neither uniqueness
constraint survives the upsert. -/
theorem mem_insertOrReplace_of_ne {store : EmailStore} {row r : EmailRow}
    (hr : r ∈ store) (h1 : r.messageId ≠ row.messageId) (h2 : r.id ≠ row.id) :
    r ∈ insertOrReplace store row :=
  List.mem_cons_of_mem _ (List.mem_filter.2 ⟨hr, by simp [h1, h2]⟩)

/-- In every reachable store state, each message identifier is carried by at
most one row. -/
theorem reachable_countMsgId_le_one {store : EmailStore}
    (h : ReachableStore store) (m : String) : countMsgId store m ≤ 1 := by
  induction h with
  | init => exact Nat.zero_le 1
  | step s row _ ih =>
    by_cases hm : m = row.messageId
    · rw [hm, countMsgId_insertOrReplace]
    · unfold countMsgId insertOrReplace
      rw [List.countP_cons_of_neg _ _ (by simp; exact fun hc => hm hc.symm)]
      calc (s.filter _).countP (fun r => r.messageId == m)
          ≤ s.countP (fun r => r.messageId == m) :=
            (List.filter_sublist s).countP_le _
        _ ≤ 1 := ih

/-- C2: persisting a message whose identifier already exists overwrites
rather than inserting a second row: after any two saves with the same
message identifier (from any starting store) exactly one row carries that
identifier, and every reachable store state carries each identifier at most
once. -/
theorem C2_message_dedup :
    (∀ (store : EmailStore) (e1 e2 : EmailRow), e1.messageId = e2.messageId →
      countMsgId (insertOrReplace (insertOrReplace store e1) e2) e2.messageId = 1) ∧
    (∀ store : EmailStore, ReachableStore store → ∀ m : String,
      countMsgId store m ≤ 1) :=
  ⟨fun store e1 e2 _ => countMsgId_insertOrReplace (insertOrReplace store e1) e2,
    fun _ h m => reachable_countMsgId_le_one h m⟩

/-- A first fetch attempt of message `<abc@x>` (C2 witness data). -/
def sampleRowA : EmailRow :=
  { id := "c001", messageId := "<abc@x>", subject := "s", fromAddress := "a@b",
    fromName := "", toAddresses := [], bodyText := "t", bodyHtml := "",
    contentType := "PLAIN", hasAttachments := false, attachmentsPath := none,
    attachments := [], folder := "INBOX", date := 50, size := 10 }

/-- A retried fetch attempt of the same message `<abc@x>` (C2 witness
data). -/
def sampleRowB : EmailRow :=
  { id := "c002", messageId := "<abc@x>", subject := "s", fromAddress := "a@b",
    fromName := "", toAddresses := [], bodyText := "t", bodyHtml := "",
    contentType := "PLAIN", hasAttachments := false, attachmentsPath := none,
    attachments := [], folder := "INBOX", date := 50, size := 10 }

/-- Witness for `C2_message_dedup` at concrete inputs. -/
theorem C2_message_dedup_witness :
    sampleRowA.messageId = sampleRowB.messageId ∧
    countMsgId (insertOrReplace (insertOrReplace [] sampleRowA) sampleRowB)
      sampleRowB.messageId = 1 ∧
    (ReachableStore (insertOrReplace [] sampleRowA) ∧
      countMsgId (insertOrReplace [] sampleRowA) "<abc@x>" ≤ 1) :=
  ⟨rfl, C2_message_dedup.1 [] sampleRowA sampleRowB rfl,
    ReachableStore.step [] sampleRowA ReachableStore.init,
    C2_message_dedup.2 (insertOrReplace [] sampleRowA)
      (ReachableStore.step [] sampleRowA ReachableStore.init) "<abc@x>"⟩

/-! ## Attachment storage (`ImapSyncService.saveAttachments`) and message
persistence (`ImapSyncService.saveEmail`) -/

/-- Static sync-service configuration: the account identifier and the path
segments of `process.cwd()` and `ATTACHMENTS_DIR`. -/
structure SyncConfig where
  accountId : String
  cwdSegs : List String
  baseSegs : List String
deriving DecidableEq, Repr

/-- Metadata recorded for each attachment written to disk
(`savedFiles.push({originalName, savedName, size, contentType})`). -/
structure SavedFile where
  originalName : String
  savedName : String
  size : Nat
  contentType : String
deriving DecidableEq, Repr

/-- The attachment size cap: attachments above `50 * 1024 * 1024` bytes are
skipped. -/
def maxAttachmentBytes : Nat := 50 * 1024 * 1024

/-- The attachments that `saveAttachments` actually writes: those with a
truthy `content` and `filename`, not exceeding the size cap. -/
def keptAttachments (atts : List AttachmentIn) : List AttachmentIn :=
  atts.filter (fun a =>
    match a.content, a.filename with
    | some _, some fn => !(fn == "") && decide (a.size ≤ maxAttachmentBytes)
    | _, _ => false)

/-- The per-file metadata returned by `saveAttachments`. -/
def savedFilesOf (atts : List AttachmentIn) : List SavedFile :=
  (keptAttachments atts).map (fun a =>
    { originalName := a.filename.getD ""
      savedName := sanitizeFilename (a.filename.getD "")
      size := a.size
      contentType := a.contentType })

/-- `ImapSyncService.saveAttachments(emailId, attachments)`: computes the
per-file metadata and returns the attachment directory when at least one
file was written, `null` otherwise.  `emailRowId` is the first argument of
the JavaScript function (`saveAttachments(cuid, ...)` at the call site in
`saveEmail`). -/
def saveAttachmentsModel (cfg : SyncConfig) (emailRowId : String)
    (atts : List AttachmentIn) : List SavedFile × Option (List String) :=
  let dir := attachmentsDirSegs cfg.cwdSegs cfg.baseSegs cfg.accountId emailRowId
  let saved := savedFilesOf atts
  (saved, if saved.isEmpty then none else some dir)

/-- The filesystem paths written by `saveAttachments`
(`path.join(attachmentsDir, sanitizedFilename)` for each kept
attachment). -/
def writtenAttachmentPaths (cfg : SyncConfig) (emailRowId : String)
    (atts : List AttachmentIn) : List (List String) :=
  (keptAttachments atts).map (fun a =>
    attachmentsDirSegs cfg.cwdSegs cfg.baseSegs cfg.accountId emailRowId ++
      [sanitizeFilename (a.filename.getD "")])

/-- The `emails` row assembled by `saveEmail` from a parsed record, a fresh
cuid and the computed attachments path. -/
def rowOfEmailData (cuid : String) (e : EmailData)
    (attachmentsPath : Option (List String)) : EmailRow :=
  { id := cuid, messageId := e.messageId, subject := e.subject,
    fromAddress := e.fromAddress, fromName := e.fromName,
    toAddresses := e.toAddresses, bodyText := e.bodyText,
    bodyHtml := e.bodyHtml, contentType := e.contentType,
    hasAttachments := e.hasAttachments, attachmentsPath := attachmentsPath,
    attachments := e.attachments, folder := e.folder, date := e.date,
    size := e.size }

/-- `ImapSyncService.saveEmail(emailData)`: generate a fresh cuid, write
attachments (obtaining the directory path) when the message has any, then
`INSERT OR REPLACE` the row.  The drawn cuid is passed explicitly. -/
def saveEmailModel (cfg : SyncConfig) (cuid : String) (store : EmailStore)
    (e : EmailData) : EmailStore :=
  let attachmentsPath :=
    if e.hasAttachments && !e.attachments.isEmpty then
      (saveAttachmentsModel cfg cuid e.attachments).2
    else none
  insertOrReplace store (rowOfEmailData cuid e attachmentsPath)

/-! ## The per-batch message loop (`ImapSyncService.fetchMessageBatch`)

Each message of a fetched batch is parsed and persisted independently; a
message whose parse or persist step throws is recorded in `this.errors`
and processing continues (`processedCount` advances either way).  The
outcome of downloading and parsing each message is an oracle input. -/

/-- Outcome of downloading one message of a batch: a successfully parsed
message (with its fetch attributes), or a message whose parse or persist
step threw with the given error message. -/
inductive MsgOutcome where
  | success (parsed : ParsedMail) (attrs : Attrs)
  | failure (errMsg : String)
deriving DecidableEq, Repr

/-- Whether a message outcome is a parse/persist failure. -/
def outcomeIsFailure : MsgOutcome → Bool
  | .success _ _ => false
  | .failure _ => true

/-- The per-message loop of `fetchMessageBatch` (no batch-level fetch
fault): returns the updated store, the updated error list, and
`processedCount`.  `cuids` and `freshes` are the oracle draws consumed by
the successfully parsed messages, in order. -/
def runBatch (cfg : SyncConfig) (folder : String) :
    List MsgOutcome → List String → List FreshId → EmailStore → List String →
    EmailStore × List String × Nat
  | [], _, _, store, errors => (store, errors, 0)
  | .success p a :: rest, cuids, freshes, store, errors =>
    let e := parseEmailData p folder a (freshes.headD ⟨0, "0"⟩)
    let res := runBatch cfg folder rest cuids.tail freshes.tail
      (saveEmailModel cfg (cuids.headD "c0") store e) errors
    (res.1, res.2.1, res.2.2 + 1)
  | .failure m :: rest, cuids, freshes, store, errors =>
    let res := runBatch cfg folder rest cuids freshes store
      (errors ++ ["Error processing message: " ++ m])
    (res.1, res.2.1, res.2.2 + 1)

/-- The parsed records of the successful messages of a batch, mirroring the
oracle consumption of `runBatch`. -/
def successEmails (folder : String) :
    List MsgOutcome → List FreshId → List EmailData
  | [], _ => []
  | .success p a :: rest, freshes =>
    parseEmailData p folder a (freshes.headD ⟨0, "0"⟩) ::
      successEmails folder rest freshes.tail
  | .failure _ :: rest, freshes => successEmails folder rest freshes

/-- The cuids actually drawn by the successful messages of a batch,
mirroring the oracle consumption of `runBatch`. -/
def usedCuids : List MsgOutcome → List String → List String
  | [], _ => []
  | .success _ _ :: rest, cuids => cuids.headD "c0" :: usedCuids rest cuids.tail
  | .failure _ :: rest, cuids => usedCuids rest cuids

/-- The error strings appended by the failed messages of a batch, in
order. -/
def failureMessages : List MsgOutcome → List String
  | [] => []
  | .success _ _ :: rest => failureMessages rest
  | .failure m :: rest => ("Error processing message: " ++ m) :: failureMessages rest

/-- One decorated error string per failure outcome. -/
theorem failureMessages_length :
    ∀ items : List MsgOutcome,
      (failureMessages items).length = items.countP outcomeIsFailure := by
  intro items
  induction items with
  | nil => rfl
  | cons x rest ih =>
    cases x with
    | success p a =>
      rw [show failureMessages (.success p a :: rest) = failureMessages rest from rfl,
        List.countP_cons_of_neg _ _ (by simp [outcomeIsFailure])]
      exact ih
    | failure m =>
      rw [show failureMessages (.failure m :: rest) =
        ("Error processing message: " ++ m) :: failureMessages rest from rfl,
        List.length_cons, List.countP_cons_of_pos _ _ (by simp [outcomeIsFailure]), ih]

/-- `runBatch` appends exactly the failure error strings to the incoming
error list. -/
theorem runBatch_errors (cfg : SyncConfig) (folder : String) :
    ∀ (items : List MsgOutcome) (cuids : List String) (freshes : List FreshId)
      (store : EmailStore) (errors : List String),
      (runBatch cfg folder items cuids freshes store errors).2.1 =
        errors ++ failureMessages items := by
  intro items
  induction items with
  | nil => intro cuids freshes store errors; simp [runBatch, failureMessages]
  | cons x rest ih =>
    intro cuids freshes store errors
    cases x with
    | success p a => simp only [runBatch, failureMessages]; exact ih _ _ _ _
    | failure m =>
      simp only [runBatch, failureMessages]
      rw [ih _ _ _ _, List.append_assoc]
      rfl

/-- `runBatch` runs to completion: `processedCount` equals the batch
size whether or not individual messages fail. -/
theorem runBatch_processed (cfg : SyncConfig) (folder : String) :
    ∀ (items : List MsgOutcome) (cuids : List String) (freshes : List FreshId)
      (store : EmailStore) (errors : List String),
      (runBatch cfg folder items cuids freshes store errors).2.2 = items.length := by
  intro items
  induction items with
  | nil => intro cuids freshes store errors; rfl
  | cons x rest ih =>
    intro cuids freshes store errors
    cases x with
    | success p a => simp only [runBatch, List.length_cons]; rw [ih]
    | failure m => simp only [runBatch, List.length_cons]; rw [ih]

/-- Membership after an upsert: the new row, or a surviving old row. -/
theorem mem_of_mem_insertOrReplace {store : EmailStore} {row r : EmailRow}
    (h : r ∈ insertOrReplace store row) : r = row ∨ r ∈ store := by
  rcases List.mem_cons.1 h with h' | h'
  · exact .inl h'
  · exact .inr (List.mem_filter.1 h').1

/-- A stored row whose identifier and id collide with no message processed
later in the batch survives the whole batch. -/
theorem runBatch_preserves_row (cfg : SyncConfig) (folder : String) :
    ∀ (items : List MsgOutcome) (cuids : List String) (freshes : List FreshId)
      (store : EmailStore) (errors : List String) (r : EmailRow),
      r ∈ store →
      (∀ e ∈ successEmails folder items freshes, e.messageId ≠ r.messageId) →
      (∀ c ∈ usedCuids items cuids, c ≠ r.id) →
      r ∈ (runBatch cfg folder items cuids freshes store errors).1 := by
  intro items
  induction items with
  | nil => intro cuids freshes store errors r hr _ _; exact hr
  | cons x rest ih =>
    intro cuids freshes store errors r hr hmsg hid
    cases x with
    | success p a =>
      simp only [runBatch]
      simp only [successEmails] at hmsg
      simp only [usedCuids] at hid
      refine ih cuids.tail freshes.tail _ errors r ?_ ?_ ?_
      · unfold saveEmailModel
        refine mem_insertOrReplace_of_ne hr ?_ ?_
        · exact fun hcontra =>
            hmsg _ (List.mem_cons_self _ _) hcontra.symm
        · exact fun hcontra =>
            hid _ (List.mem_cons_self _ _) hcontra.symm
      · exact fun e he => hmsg e (List.mem_cons_of_mem _ he)
      · exact fun c hc => hid c (List.mem_cons_of_mem _ hc)
    | failure m =>
      simp only [runBatch]
      simp only [successEmails] at hmsg
      simp only [usedCuids] at hid
      exact ih cuids freshes store _ r hr hmsg hid

/-- Every successfully parsed message of a batch ends up persisted: some
row of the final store carries its message identifier (given that the batch
draws pairwise-distinct identifiers and fresh cuids). -/
theorem runBatch_persists_successes (cfg : SyncConfig) (folder : String) :
    ∀ (items : List MsgOutcome) (cuids : List String) (freshes : List FreshId)
      (store : EmailStore) (errors : List String),
      ((successEmails folder items freshes).map EmailData.messageId).Nodup →
      (usedCuids items cuids).Nodup →
      (∀ c ∈ usedCuids items cuids, ∀ r ∈ store, c ≠ r.id) →
      ∀ e ∈ successEmails folder items freshes,
        ∃ r ∈ (runBatch cfg folder items cuids freshes store errors).1,
          r.messageId = e.messageId := by
  intro items
  induction items with
  | nil => intro _ _ _ _ _ _ _ e he; cases he
  | cons x rest ih =>
    intro cuids freshes store errors hnodup hcunodup hid e he
    cases x with
    | success p a =>
      simp only [successEmails] at he hnodup
      simp only [usedCuids] at hcunodup hid
      simp only [List.map_cons, List.nodup_cons] at hnodup
      rw [List.nodup_cons] at hcunodup
      rcases List.mem_cons.1 he with rfl | he'
      · -- the head message itself: its row survives the rest of the batch
        simp only [runBatch]
        set e0 := parseEmailData p folder a (freshes.headD ⟨0, "0"⟩) with he0
        set row0 := rowOfEmailData (cuids.headD "c0") e0
          (if e0.hasAttachments && !e0.attachments.isEmpty then
            (saveAttachmentsModel cfg (cuids.headD "c0") e0.attachments).2
          else none) with hrow0
        have hmem : row0 ∈ saveEmailModel cfg (cuids.headD "c0") store e0 :=
          List.mem_cons_self _ _
        refine ⟨row0, ?_, rfl⟩
        refine runBatch_preserves_row cfg folder rest cuids.tail freshes.tail
          _ errors row0 hmem ?_ ?_
        · intro e' he' hcontra
          exact hnodup.1 (List.mem_map.2 ⟨e', he', hcontra⟩)
        · intro c hc hcontra
          exact hcunodup.1 ((show c = cuids.headD "c0" from hcontra) ▸ hc)
      · -- a later message: induction with the enlarged store
        simp only [runBatch]
        refine ih cuids.tail freshes.tail _ errors hnodup.2 hcunodup.2 ?_ e he'
        intro c hc r hrmem
        rcases mem_of_mem_insertOrReplace hrmem with rfl | hrmem'
        · exact fun hcontra =>
            hcunodup.1 ((show c = cuids.headD "c0" from hcontra) ▸ hc)
        · exact hid c (List.mem_cons_of_mem _ hc) r hrmem'
    | failure m =>
      simp only [successEmails] at he hnodup
      simp only [usedCuids] at hcunodup hid
      simp only [runBatch]
      exact ih cuids freshes store _ hnodup hcunodup hid e he

/-- Success and failure outcomes partition the batch. -/
theorem successEmails_length (folder : String) :
    ∀ (items : List MsgOutcome) (freshes : List FreshId),
      (successEmails folder items freshes).length +
        items.countP outcomeIsFailure = items.length := by
  intro items
  induction items with
  | nil => intro freshes; rfl
  | cons x rest ih =>
    intro freshes
    cases x with
    | success p a =>
      simp only [successEmails, List.length_cons,
        List.countP_cons_of_neg _ _ (by simp [outcomeIsFailure] :
          ¬ outcomeIsFailure (.success p a) = true)]
      rw [Nat.succ_add, ih]
    | failure m =>
      simp only [successEmails, List.length_cons,
        List.countP_cons_of_pos _ _ (by simp [outcomeIsFailure] :
          outcomeIsFailure (.failure m) = true)]
      rw [← Nat.add_assoc, ih]

/-- C4: in a batch where exactly one message fails to parse or persist (and
no batch-level fetch fault occurs), the other `n - 1` messages are each
persisted, exactly one error is appended to the sync's error list, and the
batch runs to completion (`processedCount = n`). -/
theorem C4_batch_fault_isolation
    (cfg : SyncConfig) (folder : String) (items : List MsgOutcome)
    (cuids : List String) (freshes : List FreshId) (store : EmailStore)
    (errors : List String)
    (hone : items.countP outcomeIsFailure = 1)
    (hnodup : ((successEmails folder items freshes).map EmailData.messageId).Nodup)
    (hcuids : (usedCuids items cuids).Nodup)
    (hfresh : ∀ c ∈ usedCuids items cuids, ∀ r ∈ store, c ≠ r.id) :
    (successEmails folder items freshes).length = items.length - 1 ∧
    (∀ e ∈ successEmails folder items freshes,
      ∃ r ∈ (runBatch cfg folder items cuids freshes store errors).1,
        r.messageId = e.messageId) ∧
    (runBatch cfg folder items cuids freshes store errors).2.1.length =
      errors.length + 1 ∧
    (runBatch cfg folder items cuids freshes store errors).2.2 = items.length := by
  refine ⟨?_, ?_, ?_, runBatch_processed cfg folder items cuids freshes store errors⟩
  · have h := successEmails_length folder items freshes
    omega
  · exact runBatch_persists_successes cfg folder items cuids freshes store errors
      hnodup hcuids hfresh
  · rw [runBatch_errors cfg folder items cuids freshes store errors,
      List.length_append, failureMessages_length, hone]

/-- A header-only parsed mail with the given Message-ID (C4 witness
data). -/
def c4Mail (mid : String) : ParsedMail :=
  { messageId := some mid, subject := none, fromAddress := none,
    fromName := none, toAddresses := [], ccAddresses := [], bccAddresses := [],
    text := some "t", html := none, date := some 10, attachments := [] }

/-- A batch of ten messages in which exactly the fifth fails to parse (C4
witness data). -/
def c4Items : List MsgOutcome :=
  [.success (c4Mail "<b1@x>") ⟨[], 1⟩, .success (c4Mail "<b2@x>") ⟨[], 1⟩,
   .success (c4Mail "<b3@x>") ⟨[], 1⟩, .success (c4Mail "<b4@x>") ⟨[], 1⟩,
   .failure "Unexpected token", .success (c4Mail "<b6@x>") ⟨[], 1⟩,
   .success (c4Mail "<b7@x>") ⟨[], 1⟩, .success (c4Mail "<b8@x>") ⟨[], 1⟩,
   .success (c4Mail "<b9@x>") ⟨[], 1⟩, .success (c4Mail "<b10@x>") ⟨[], 1⟩]

/-- Fresh cuids drawn for the nine successful messages (C4 witness data). -/
def c4Cuids : List String :=
  ["k1", "k2", "k3", "k4", "k5", "k6", "k7", "k8", "k9"]

/-- Witness for `C4_batch_fault_isolation`: ten messages, the fifth failing
to parse, starting from the empty store. -/
theorem C4_batch_fault_isolation_witness :
    c4Items.countP outcomeIsFailure = 1 ∧
    ((successEmails "INBOX" c4Items []).map EmailData.messageId).Nodup ∧
    (usedCuids c4Items c4Cuids).Nodup ∧
    (∀ c ∈ usedCuids c4Items c4Cuids, ∀ r ∈ ([] : EmailStore), c ≠ r.id) ∧
    ((successEmails "INBOX" c4Items []).length = c4Items.length - 1 ∧
      (∀ e ∈ successEmails "INBOX" c4Items [],
        ∃ r ∈ (runBatch ⟨"acct1", ["w"], ["data", "attachments"]⟩ "INBOX"
            c4Items c4Cuids [] [] []).1,
          r.messageId = e.messageId) ∧
      (runBatch ⟨"acct1", ["w"], ["data", "attachments"]⟩ "INBOX"
        c4Items c4Cuids [] [] []).2.1.length = ([] : List String).length + 1 ∧
      (runBatch ⟨"acct1", ["w"], ["data", "attachments"]⟩ "INBOX"
        c4Items c4Cuids [] [] []).2.2 = c4Items.length) :=
  ⟨by decide, by decide, by decide, by decide,
    C4_batch_fault_isolation ⟨"acct1", ["w"], ["data", "attachments"]⟩ "INBOX"
      c4Items c4Cuids [] [] [] (by decide) (by decide) (by decide) (by decide)⟩

/-! ## The per-folder batch loop of `ImapSyncService.syncFolderAttempt`

Each batch is fetched via `fetchMessageBatch`; a batch-level rejection is
caught, recorded in `this.errors`, and re-thrown (escalated to the
reconnect-and-retry path of `syncFolder`) only when its message contains
`'socket'` or `'connection'`; otherwise the loop moves on to the next batch
unless the accumulated errors reach `maxErrors`. -/

/-- `error.message.includes('socket') || error.message.includes('connection')`. -/
def isConnectionError (msg : String) : Bool :=
  occursIn "socket".data msg.data || occursIn "connection".data msg.data

/-- The message of the rejection raised by the per-batch 60-second timeout
(`Batch processing timeout for messages ${seqnoRange}`). -/
def batchTimeoutMessage (range : String) : String :=
  "Batch processing timeout for messages " ++ range

/-- Outcome of one `fetchMessageBatch` call: resolution with its processed
count, or rejection with an error message. -/
inductive BatchResult where
  | completed (count : Nat)
  | failed (errMsg : String)
deriving DecidableEq, Repr

/-- The batch loop of `syncFolderAttempt`: accumulate counts; on a batch
failure record the error, escalate (throw, carrying the updated error
list) exactly for connection-like messages, otherwise stop early only when
`maxErrors` is reached. -/
def processBatchLoop (folderName : String) (maxErrors : Nat) :
    List BatchResult → Nat → List String →
    Except (String × List String) (Nat × List String)
  | [], acc, errors => .ok (acc, errors)
  | .completed n :: rest, acc, errors =>
    processBatchLoop folderName maxErrors rest (acc + n) errors
  | .failed m :: rest, acc, errors =>
    let errors' := errors ++ ["Batch processing error in " ++ folderName ++ ": " ++ m]
    if isConnectionError m then .error (m, errors')
    else if maxErrors ≤ errors'.length then .ok (acc, errors')
    else processBatchLoop folderName maxErrors rest acc errors'

/-- A prefix match against a concatenation stays in the left part or uses a
pattern character from the right part. -/
theorem startsWith_append (pat : List Char) :
    ∀ (a b : List Char), startsWith (a ++ b) pat = true →
      startsWith a pat = true ∨ ∃ c ∈ pat, c ∈ b := by
  induction pat with
  | nil => intro a b _; left; cases a <;> rfl
  | cons p ps ih =>
    intro a b h
    cases a with
    | nil =>
      right
      rw [List.nil_append] at h
      exact ⟨p, List.mem_cons_self _ _, mem_of_startsWith h p (List.mem_cons_self _ _)⟩
    | cons x xs =>
      rw [List.cons_append] at h
      simp only [startsWith, Bool.and_eq_true, decide_eq_true_eq] at h
      rcases ih xs b h.2 with h' | ⟨c, hc1, hc2⟩
      · left
        simp only [startsWith, Bool.and_eq_true, decide_eq_true_eq]
        exact ⟨h.1, h'⟩
      · exact .inr ⟨c, List.mem_cons_of_mem _ hc1, hc2⟩

/-- An occurrence inside a concatenation lies in the left part or uses a
pattern character from the right part. -/
theorem occursIn_append (pat : List Char) :
    ∀ (a b : List Char), occursIn pat (a ++ b) = true →
      occursIn pat a = true ∨ ∃ c ∈ pat, c ∈ b := by
  intro a
  induction a with
  | nil =>
    intro b h
    cases pat with
    | nil => left; rfl
    | cons p ps =>
      right
      rw [List.nil_append] at h
      exact ⟨p, List.mem_cons_self _ _, mem_of_occursIn h p (List.mem_cons_self _ _)⟩
  | cons x xs ih =>
    intro b h
    rw [List.cons_append] at h
    simp only [occursIn, Bool.or_eq_true] at h ⊢
    rcases h with h | h
    · rw [← List.cons_append] at h
      rcases startsWith_append pat _ b h with h' | h'
      · exact .inl (.inl h')
      · exact .inr h'
    · rcases ih b h with h' | h'
      · exact .inl (.inr h')
      · exact .inr h'

/-- The batch-timeout message is never connection-like: the sequence-number
range interpolated into it consists of digits and commas only. -/
theorem batchTimeoutMessage_not_connection (range : String)
    (hr : ∀ c ∈ range.data, c.isDigit = true ∨ c = ',') :
    isConnectionError (batchTimeoutMessage range) = false := by
  have hdata : (batchTimeoutMessage range).data =
      ("Batch processing timeout for messages " : String).data ++ range.data := rfl
  unfold isConnectionError
  rw [hdata]
  have hsock : occursIn "socket".data
      (("Batch processing timeout for messages " : String).data ++ range.data) = false := by
    by_contra hcon
    rcases occursIn_append _ _ _ (Bool.of_not_eq_false hcon) with h' | ⟨c, hc1, hc2⟩
    · exact absurd h' (by decide)
    · rcases hr c hc2 with hd | hd
      · have : c.isDigit = false := by
          fin_cases hc1 <;> decide
        rw [this] at hd; cases hd
      · rw [hd] at hc1
        exact absurd hc1 (by decide)
  have hconn : occursIn "connection".data
      (("Batch processing timeout for messages " : String).data ++ range.data) = false := by
    by_contra hcon
    rcases occursIn_append _ _ _ (Bool.of_not_eq_false hcon) with h' | ⟨c, hc1, hc2⟩
    · exact absurd h' (by decide)
    · rcases hr c hc2 with hd | hd
      · have : c.isDigit = false := by
          fin_cases hc1 <;> decide
        rw [this] at hd; cases hd
      · rw [hd] at hc1
        exact absurd hc1 (by decide)
  rw [hsock, hconn]
  rfl

/-- C3 counterexample: a per-batch timeout is not escalated like a
socket/connection fault.  With the batch timeout for messages `101`
followed by another batch, the loop records the error and processes the
remaining batch (`.ok` with its count), whereas an actual socket fault is
escalated (`.error`). -/
theorem C3_counterexample :
    isConnectionError (batchTimeoutMessage "101") = false ∧
    processBatchLoop "INBOX" 10 [.failed (batchTimeoutMessage "101"), .completed 1] 0 [] =
      .ok (1, ["Batch processing error in INBOX: Batch processing timeout for messages 101"]) ∧
    processBatchLoop "INBOX" 10 [.failed "read ECONNRESET (socket)", .completed 1] 0 [] =
      .error ("read ECONNRESET (socket)",
        ["Batch processing error in INBOX: read ECONNRESET (socket)"]) := by
  refine ⟨by decide, rfl, rfl⟩

/-- C3 (amended): a batch failure whose message is not connection-like —
in particular the per-batch timeout, whose message interpolates only a
digits-and-commas sequence range — is recorded as a non-fatal error and the
loop continues with the remaining batches (as long as `maxErrors` is not
reached); exactly the failures whose message contains `socket` or
`connection` are escalated to the folder-level reconnect-and-retry path. -/
theorem C3_timeout_nonfatal :
    (∀ (folder m : String) (rest : List BatchResult) (acc : Nat)
        (errors : List String) (maxErrors : Nat),
      isConnectionError m = false → errors.length + 1 < maxErrors →
      processBatchLoop folder maxErrors (.failed m :: rest) acc errors =
        processBatchLoop folder maxErrors rest acc
          (errors ++ ["Batch processing error in " ++ folder ++ ": " ++ m])) ∧
    (∀ (folder m : String) (rest : List BatchResult) (acc : Nat)
        (errors : List String) (maxErrors : Nat),
      isConnectionError m = true →
      processBatchLoop folder maxErrors (.failed m :: rest) acc errors =
        .error (m, errors ++ ["Batch processing error in " ++ folder ++ ": " ++ m])) ∧
    (∀ range : String, (∀ c ∈ range.data, c.isDigit = true ∨ c = ',') →
      isConnectionError (batchTimeoutMessage range) = false) := by
  refine ⟨?_, ?_, batchTimeoutMessage_not_connection⟩
  · intro folder m rest acc errors maxErrors hm hlt
    simp only [processBatchLoop]
    rw [if_neg (by simp [hm]), if_neg (by simp only [List.length_append,
      List.length_cons, List.length_nil]; omega)]
  · intro folder m rest acc errors maxErrors hm
    simp only [processBatchLoop]
    rw [if_pos hm]

/-- Witness for `C3_timeout_nonfatal` at concrete inputs. -/
theorem C3_timeout_nonfatal_witness :
    (isConnectionError (batchTimeoutMessage "7,8,9") = false ∧
      ([] : List String).length + 1 < 10 ∧
      processBatchLoop "INBOX" 10 [.failed (batchTimeoutMessage "7,8,9"), .completed 2] 0 [] =
        processBatchLoop "INBOX" 10 [.completed 2] 0
          ["Batch processing error in INBOX: " ++ batchTimeoutMessage "7,8,9"]) ∧
    (isConnectionError "socket hang up" = true ∧
      processBatchLoop "INBOX" 10 [.failed "socket hang up"] 0 [] =
        .error ("socket hang up", ["Batch processing error in INBOX: socket hang up"])) ∧
    ((∀ c ∈ ("7,8,9" : String).data, c.isDigit = true ∨ c = ',') ∧
      isConnectionError (batchTimeoutMessage "7,8,9") = false) :=
  ⟨⟨by decide, by decide,
      C3_timeout_nonfatal.1 "INBOX" (batchTimeoutMessage "7,8,9") [.completed 2] 0 [] 10
        (by decide) (by decide)⟩,
    ⟨by decide,
      C3_timeout_nonfatal.2.1 "INBOX" "socket hang up" [] 0 [] 10 (by decide)⟩,
    ⟨by decide, C3_timeout_nonfatal.2.2 "7,8,9" (by decide)⟩⟩

/-! ## Message discovery and per-folder sync
(`ImapSyncService.getLastSyncDate`, `syncFolderAttempt`,
`getNewMessagesFullCheck`)

The only folder cursor the sync service consults is the derived
`SELECT MAX(date) FROM emails WHERE folder = ?` value; the `sync_state`
table (`uidValidity`, `highestUid`, `lastSyncAt`) exists in the migration
scripts and the Prisma schema but is never read or written by any sync
code path. -/

/-- A message on the remote IMAP server as visible to the sync: its UID,
its internal date (compared by `SEARCH SINCE`), the Message-ID extractable
from its header by `extractMessageId` (`none` when the regex does not
match), and its full parsed form with fetch attributes. -/
structure RemoteMsg where
  uid : Nat
  date : Nat
  headerId : Option String
  parsed : ParsedMail
  attrs : Attrs
deriving DecidableEq, Repr

/-- `MAX` over a list of dates (`none` on an empty folder). -/
def maxDate : List Nat → Option Nat
  | [] => none
  | d :: rest =>
    match maxDate rest with
    | none => some d
    | some m => some (max d m)

/-- `ImapSyncService.getLastSyncDate`:
`SELECT MAX(date) as lastDate FROM emails WHERE folder = ?`. -/
def getLastSyncDate (store : EmailStore) (folder : String) : Option Nat :=
  maxDate ((store.filter (fun r => r.folder == folder)).map (fun r => r.date))

/-- `ImapSyncService.getExistingMessageIds`:
`SELECT messageId FROM emails WHERE folder = ?`. -/
def existingMessageIds (store : EmailStore) (folder : String) : List String :=
  (store.filter (fun r => r.folder == folder)).map (fun r => r.messageId)

/-- `this.imap.search(['SINCE', lastSyncDate])`: the remote messages whose
internal date is at or after the cursor date. -/
def searchSince (remote : List RemoteMsg) (d : Nat) : List RemoteMsg :=
  remote.filter (fun m => decide (d ≤ m.date))

/-- `ImapSyncService.getNewMessagesFullCheck`: fetch every header, keep the
messages whose Message-ID was extracted and is not already stored for this
folder. -/
def fullHeaderCheck (remote : List RemoteMsg) (existing : List String) :
    List RemoteMsg :=
  remote.filter (fun m =>
    match m.headerId with
    | some i => !(existing.contains i)
    | none => false)

/-- The discovery step of `syncFolderAttempt`: with a cursor, attempt the
server search first (falling back to the full header scan if the search
rejects — `searchFails` is that oracle); without a cursor, scan all
headers.  Returns the messages to fetch and whether the fallback ran.
Discovery itself records no entry in `this.errors` (the search failure is
only logged as a warning). -/
def discoverMessages (remote : List RemoteMsg) (searchFails : Bool)
    (lastSync : Option Nat) (existing : List String) :
    List RemoteMsg × Bool :=
  match lastSync with
  | some d =>
    if searchFails then (fullHeaderCheck remote existing, true)
    else (searchSince remote d, false)
  | none => (fullHeaderCheck remote existing, true)

/-- Result of one folder sync attempt: the updated store, the number of
processed messages, the error list, and which discovery strategy ran. -/
structure FolderSyncResult where
  store : EmailStore
  newCount : Nat
  errors : List String
  usedFullScan : Bool
deriving DecidableEq, Repr

/-- `ImapSyncService.syncFolderAttempt` in the fault-free fetch case:
derive the date cursor, discover messages, then fetch, parse and persist
each discovered message in order (batch splitting with no batch-level
fault is sequential processing). -/
def syncFolderAttemptModel (cfg : SyncConfig) (remote : List RemoteMsg)
    (searchFails : Bool) (folder : String) (store : EmailStore)
    (errors : List String) (cuids : List String) (freshes : List FreshId) :
    FolderSyncResult :=
  let lastSync := getLastSyncDate store folder
  let disc := discoverMessages remote searchFails lastSync
    (existingMessageIds store folder)
  let items := disc.1.map (fun m => MsgOutcome.success m.parsed m.attrs)
  let res := runBatch cfg folder items cuids freshes store errors
  { store := res.1, newCount := res.2.2, errors := res.2.1,
    usedFullScan := disc.2 }

/-- One row of the `sync_state` table (created by the migration scripts;
`highestUid` is documented there as "Highest UID synced"). -/
structure SyncStateRow where
  id : String
  folder : String
  uidValidity : Option Nat
  highestUid : Nat
  lastSyncAt : Option Nat
deriving DecidableEq, Repr

/-- A per-account SQLite database: the `emails` table and the `sync_state`
table. -/
structure AccountDb where
  emails : EmailStore
  syncState : List SyncStateRow
deriving DecidableEq, Repr

/-- A folder sync over the whole account database.  No statement in the
sync service touches `sync_state`, so its rows pass through unchanged. -/
def syncFolderOnDb (cfg : SyncConfig) (remote : List RemoteMsg)
    (searchFails : Bool) (folder : String) (db : AccountDb)
    (cuids : List String) (freshes : List FreshId) :
    AccountDb × Nat × List String :=
  let res := syncFolderAttemptModel cfg remote searchFails folder db.emails
    [] cuids freshes
  ({ emails := res.store, syncState := db.syncState }, res.newCount, res.errors)

/-- Batches consisting only of successfully parsed messages append no
errors. -/
theorem failureMessages_map_success (msgs : List RemoteMsg) :
    failureMessages (msgs.map (fun m => MsgOutcome.success m.parsed m.attrs)) = [] := by
  induction msgs with
  | nil => rfl
  | cons m rest ih => simpa [failureMessages] using ih

/-- C8: when a cursor exists, the server search is used first (its results
are taken when it succeeds); the full-header-scan fallback runs exactly
when no cursor exists or the search fails; a search failure recovered by
the fallback surfaces no error; and an empty discovered set is a valid
non-error outcome with zero new messages and an unchanged store. -/
theorem C8_discovery_policy :
    (∀ (remote : List RemoteMsg) (d : Nat) (existing : List String),
      discoverMessages remote false (some d) existing = (searchSince remote d, false)) ∧
    (∀ (remote : List RemoteMsg) (searchFails : Bool) (lastSync : Option Nat)
        (existing : List String),
      (discoverMessages remote searchFails lastSync existing).2 = true ↔
        (lastSync = none ∨ searchFails = true)) ∧
    (∀ (remote : List RemoteMsg) (d : Nat) (existing : List String),
      discoverMessages remote true (some d) existing =
        (fullHeaderCheck remote existing, true)) ∧
    (∀ (cfg : SyncConfig) (remote : List RemoteMsg) (folder : String)
        (store : EmailStore) (errors : List String) (cuids : List String)
        (freshes : List FreshId),
      (syncFolderAttemptModel cfg remote true folder store errors cuids
        freshes).errors = errors) ∧
    (∀ (cfg : SyncConfig) (remote : List RemoteMsg) (searchFails : Bool)
        (folder : String) (store : EmailStore) (errors : List String)
        (cuids : List String) (freshes : List FreshId),
      (discoverMessages remote searchFails (getLastSyncDate store folder)
        (existingMessageIds store folder)).1 = [] →
      (syncFolderAttemptModel cfg remote searchFails folder store errors cuids
        freshes).newCount = 0 ∧
      (syncFolderAttemptModel cfg remote searchFails folder store errors cuids
        freshes).errors = errors ∧
      (syncFolderAttemptModel cfg remote searchFails folder store errors cuids
        freshes).store = store) := by
  refine ⟨fun remote d existing => rfl, ?_, fun remote d existing => rfl, ?_, ?_⟩
  · intro remote searchFails lastSync existing
    cases lastSync <;> cases searchFails <;> simp [discoverMessages]
  · intro cfg remote folder store errors cuids freshes
    simp only [syncFolderAttemptModel]
    rw [runBatch_errors, failureMessages_map_success, List.append_nil]
  · intro cfg remote searchFails folder store errors cuids freshes hempty
    simp only [syncFolderAttemptModel, hempty, List.map_nil]
    exact ⟨rfl, rfl, rfl⟩

/-- Witness for `C8_discovery_policy` at concrete inputs. -/
theorem C8_discovery_policy_witness :
    ((discoverMessages [] true (some 5) ["<a@x>"]).2 = true ↔
      ((some 5 : Option Nat) = none ∨ true = true)) ∧
    ((discoverMessages [] false (getLastSyncDate [] "INBOX")
        (existingMessageIds [] "INBOX")).1 = [] ∧
      (syncFolderAttemptModel ⟨"acct1", ["w"], ["data", "attachments"]⟩ []
        false "INBOX" [] [] [] []).newCount = 0 ∧
      (syncFolderAttemptModel ⟨"acct1", ["w"], ["data", "attachments"]⟩ []
        false "INBOX" [] [] [] []).errors = [] ∧
      (syncFolderAttemptModel ⟨"acct1", ["w"], ["data", "attachments"]⟩ []
        false "INBOX" [] [] [] []).store = []) :=
  ⟨C8_discovery_policy.2.1 [] true (some 5) ["<a@x>"],
    rfl,
    (C8_discovery_policy.2.2.2.2 ⟨"acct1", ["w"], ["data", "attachments"]⟩ []
      false "INBOX" [] [] [] [] rfl).1,
    (C8_discovery_policy.2.2.2.2 ⟨"acct1", ["w"], ["data", "attachments"]⟩ []
      false "INBOX" [] [] [] [] rfl).2.1,
    (C8_discovery_policy.2.2.2.2 ⟨"acct1", ["w"], ["data", "attachments"]⟩ []
      false "INBOX" [] [] [] [] rfl).2.2⟩

/-- The already-synced message of the C1 scenario, as parsed. -/
def c1MailOld : ParsedMail :=
  { messageId := some "<old@x>", subject := some "old", fromAddress := some "a@b",
    fromName := none, toAddresses := [], ccAddresses := [], bccAddresses := [],
    text := some "old body", html := none, date := some 50, attachments := [] }

/-- The new message (UID 101, identifier `<abc@x>`) of the C1 scenario, as
parsed. -/
def c1MailNew : ParsedMail :=
  { messageId := some "<abc@x>", subject := some "new", fromAddress := some "a@b",
    fromName := none, toAddresses := [], ccAddresses := [], bccAddresses := [],
    text := some "new body", html := none, date := some 60, attachments := [] }

/-- The stored row of the already-synced message (C1 scenario). -/
def c1OldRow : EmailRow :=
  { id := "cOld", messageId := "<old@x>", subject := "old", fromAddress := "a@b",
    fromName := "", toAddresses := [], bodyText := "old body", bodyHtml := "",
    contentType := "PLAIN", hasAttachments := false, attachmentsPath := none,
    attachments := [], folder := "INBOX", date := 50, size := 10 }

/-- The account database before the C1 scenario sync: one stored INBOX
message and a persisted `sync_state` cursor `{folder: INBOX, highestUid:
100}`. -/
def c1Db : AccountDb :=
  { emails := [c1OldRow],
    syncState := [⟨"s1", "INBOX", none, 100, some 50⟩] }

/-- The remote INBOX of the C1 scenario: the already-synced message (UID
100) and one new message (UID 101, identifier `<abc@x>`). -/
def c1Remote : List RemoteMsg :=
  [⟨100, 50, some "<old@x>", c1MailOld, ⟨[], 10⟩⟩,
   ⟨101, 60, some "<abc@x>", c1MailNew, ⟨[], 12⟩⟩]

/-- The account database after running the incremental folder sync of the
C1 scenario. -/
def c1Result : AccountDb :=
  (syncFolderOnDb ⟨"acct1", ["w"], ["data", "attachments"]⟩
    c1Remote false "INBOX" c1Db ["cN1", "cN2"]
    [⟨70, "0.1"⟩, ⟨71, "0.2"⟩]).1

/-- C1 counterexample: in the scenario, incremental sync stores exactly one
row with identifier `<abc@x>`, but no `SyncCursor` advances to
`highestUid = 101` — the persisted `sync_state` row is untouched and still
carries `highestUid = 100`. -/
theorem C1_counterexample :
    countMsgId c1Result.emails "<abc@x>" = 1 ∧
    c1Result.syncState = [⟨"s1", "INBOX", none, 100, some 50⟩] ∧
    ¬ ∃ row ∈ c1Result.syncState, row.highestUid = 101 := by
  refine ⟨by decide, by decide, by decide⟩

/-- C1 (amended): incremental sync of the scenario stores exactly one row
with identifier `<abc@x>` in folder `INBOX`, and the effective cursor the
service derives (`MAX(date)` over stored rows) advances to the new
message's date; the persisted `sync_state` cursor is never written by any
folder sync, so its `highestUid` stays at 100. -/
theorem C1_incremental_scenario :
    (∀ (cfg : SyncConfig) (remote : List RemoteMsg) (searchFails : Bool)
        (folder : String) (db : AccountDb) (cuids : List String)
        (freshes : List FreshId),
      (syncFolderOnDb cfg remote searchFails folder db cuids freshes).1.syncState =
        db.syncState) ∧
    countMsgId c1Result.emails "<abc@x>" = 1 ∧
    (c1Result.emails.filter
      (fun r => r.messageId == "<abc@x>" && r.folder == "INBOX")).length = 1 ∧
    getLastSyncDate c1Result.emails "INBOX" = some 60 ∧
    c1Result.syncState = c1Db.syncState := by
  exact ⟨fun cfg remote searchFails folder db cuids freshes => rfl,
    by decide, by decide, by decide, by decide⟩

/-! ## The sync scheduler (`scripts/sync-scheduler.ts`, `SyncScheduler`)

`getActiveSyncAccounts` selects the accounts to sync; after each account's
`incrementalSync` resolves, `syncAccount` writes the error bookkeeping back
to the account row. -/

/-- An account row of the main database as read and written by the
scheduler (`isActive`, `syncEnabled`, `errorCount`, `errorMessage`,
`lastSyncAt`). -/
structure ImapAccount where
  id : String
  email : String
  isActive : Bool
  syncEnabled : Bool
  errorCount : Nat
  errorMessage : Option String
  lastSyncAt : Option Nat
deriving DecidableEq, Repr

/-- `SyncScheduler.getActiveSyncAccounts`: accounts where
`isActive && syncEnabled && errorCount < MAX_SYNC_ERRORS`. -/
def getActiveSyncAccounts (accounts : List ImapAccount) (maxErrors : Nat) :
    List ImapAccount :=
  accounts.filter (fun a =>
    a.isActive && a.syncEnabled && decide (a.errorCount < maxErrors))

/-- The account update performed by `SyncScheduler.syncAccount` once
`incrementalSync` resolves with `result.errors`: stamp `lastSyncAt`; with
errors, join them into `errorMessage`, increment `errorCount` and disable
`syncEnabled` when the incremented count reaches `maxErrors`; with no
errors, clear `errorMessage` and reset `errorCount` to zero. -/
def updateAfterSync (a : ImapAccount) (resultErrors : List String)
    (maxErrors : Nat) (now : Nat) : ImapAccount :=
  { a with
    lastSyncAt := some now
    errorMessage :=
      if resultErrors.length > 0 then
        some (String.intercalate "; " resultErrors)
      else none
    errorCount := if resultErrors.length > 0 then a.errorCount + 1 else 0
    syncEnabled :=
      if resultErrors.length > 0 && decide (maxErrors ≤ a.errorCount + 1) then
        false
      else a.syncEnabled }

/-- The account update performed by the `catch` branch of
`SyncScheduler.syncAccount` when `incrementalSync` itself throws. -/
def updateAfterCriticalError (a : ImapAccount) (errMsg : String)
    (maxErrors : Nat) : ImapAccount :=
  { a with
    errorMessage := some errMsg
    errorCount := a.errorCount + 1
    syncEnabled :=
      if decide (maxErrors ≤ a.errorCount + 1) then false else a.syncEnabled }

/-- C7: the scheduler selects exactly the accounts with
`isActive && syncEnabled && errorCount < maxErrors`; after a sync with no
errors the account's `errorCount` resets to zero and its message clears;
after a sync with errors the count increments by one, the message is
recorded, and `syncEnabled` becomes `false` exactly when the incremented
count reaches the configured maximum. -/
theorem C7_scheduler_bookkeeping :
    (∀ (accounts : List ImapAccount) (maxErrors : Nat) (a : ImapAccount),
      a ∈ getActiveSyncAccounts accounts maxErrors ↔
        a ∈ accounts ∧ a.isActive = true ∧ a.syncEnabled = true ∧
          a.errorCount < maxErrors) ∧
    (∀ (a : ImapAccount) (maxErrors now : Nat),
      (updateAfterSync a [] maxErrors now).errorCount = 0 ∧
      (updateAfterSync a [] maxErrors now).errorMessage = none) ∧
    (∀ (a : ImapAccount) (errs : List String) (maxErrors now : Nat),
      errs ≠ [] →
      (updateAfterSync a errs maxErrors now).errorCount = a.errorCount + 1 ∧
      (updateAfterSync a errs maxErrors now).errorMessage =
        some (String.intercalate "; " errs)) ∧
    (∀ (a : ImapAccount) (errs : List String) (maxErrors now : Nat),
      errs ≠ [] → a.syncEnabled = true → a.errorCount < maxErrors →
      ((updateAfterSync a errs maxErrors now).syncEnabled = false ↔
        a.errorCount + 1 = maxErrors)) := by
  refine ⟨?_, ?_, ?_, ?_⟩
  · intro accounts maxErrors a
    simp [getActiveSyncAccounts, List.mem_filter, and_assoc]
  · intro a maxErrors now
    exact ⟨rfl, rfl⟩
  · intro a errs maxErrors now herr
    have hlen : errs.length > 0 := List.length_pos.2 herr
    constructor
    · simp only [updateAfterSync, if_pos hlen]
    · simp only [updateAfterSync, if_pos hlen]
  · intro a errs maxErrors now herr hsync hlt
    have hlen : errs.length > 0 := List.length_pos.2 herr
    simp only [updateAfterSync]
    constructor
    · intro hdis
      by_cases hge : maxErrors ≤ a.errorCount + 1
      · omega
      · rw [if_neg (by simp [hge])] at hdis
        rw [hsync] at hdis
        cases hdis
    · intro heq
      rw [if_pos (by simp [hlen]; omega)]

/-- Two accounts, the second with `syncEnabled = false` (C7 witness
data). -/
def c7AccountOn : ImapAccount :=
  ⟨"a1", "on@x", true, true, 0, none, none⟩

/-- The disabled account of the C7 witness. -/
def c7AccountOff : ImapAccount :=
  ⟨"a2", "off@x", true, false, 0, none, none⟩

/-- An account one error short of the maximum (C7 witness data). -/
def c7AccountAtEdge : ImapAccount :=
  ⟨"a3", "edge@x", true, true, 4, some "old", some 1⟩

/-- Witness for `C7_scheduler_bookkeeping` at concrete inputs: the enabled
account is selected and the disabled one is not; a clean cycle resets the
bookkeeping; a failing cycle on the at-the-edge account disables it. -/
theorem C7_scheduler_bookkeeping_witness :
    (c7AccountOn ∈ getActiveSyncAccounts [c7AccountOn, c7AccountOff] 5 ∧
      c7AccountOff ∉ getActiveSyncAccounts [c7AccountOn, c7AccountOff] 5) ∧
    ((updateAfterSync c7AccountAtEdge [] 5 9).errorCount = 0 ∧
      (updateAfterSync c7AccountAtEdge [] 5 9).errorMessage = none) ∧
    ((updateAfterSync c7AccountAtEdge ["boom"] 5 9).errorCount = 5 ∧
      (updateAfterSync c7AccountAtEdge ["boom"] 5 9).errorMessage =
        some (String.intercalate "; " ["boom"])) ∧
    ((updateAfterSync c7AccountAtEdge ["boom"] 5 9).syncEnabled = false ↔
      c7AccountAtEdge.errorCount + 1 = 5) :=
  ⟨⟨(C7_scheduler_bookkeeping.1 [c7AccountOn, c7AccountOff] 5 c7AccountOn).2
      ⟨by decide, by decide, by decide, by decide⟩,
    fun hmem =>
      absurd ((C7_scheduler_bookkeeping.1 [c7AccountOn, c7AccountOff] 5
        c7AccountOff).1 hmem).2.2.1 (by decide)⟩,
    C7_scheduler_bookkeeping.2.1 c7AccountAtEdge 5 9,
    ⟨((C7_scheduler_bookkeeping.2.2.1 c7AccountAtEdge ["boom"] 5 9 (by decide)).1).trans
        (by decide),
      (C7_scheduler_bookkeeping.2.2.1 c7AccountAtEdge ["boom"] 5 9 (by decide)).2⟩,
    C7_scheduler_bookkeeping.2.2.2 c7AccountAtEdge ["boom"] 5 9 (by decide)
      (by decide) (by decide)⟩

/-- A one-kilobyte PDF attachment (C9 data). -/
def c9Attachment : AttachmentIn :=
  ⟨some "report.pdf", "application/pdf", 1000, some [1, 2, 3]⟩

/-- A parsed message with identifier `<abc@x>` and one attachment (C9
data). -/
def c9Mail : ParsedMail :=
  { messageId := some "<abc@x>", subject := some "r", fromAddress := none,
    fromName := none, toAddresses := [], ccAddresses := [], bccAddresses := [],
    text := some "t", html := none, date := some 80,
    attachments := [c9Attachment] }

/-- The record `parseEmailData` derives from `c9Mail` (C9 data). -/
def c9Email : EmailData := parseEmailData c9Mail "INBOX" ⟨[], 42⟩ ⟨90, "0.3"⟩

/-- The sync configuration of the C9 scenario. -/
def c9Cfg : SyncConfig := ⟨"acct1", ["w"], ["data", "attachments"]⟩

/-- C9 counterexample: `saveEmail` passes the freshly generated row cuid —
not the message's Message-ID-derived identifier — to `saveAttachments`, so
the attachment payload of a message with identifier `<abc@x>` saved under
cuid `cRow1` is written below `.../acct1/cRow1/`, a path in which the
message identifier does not occur. -/
theorem C9_counterexample :
    c9Email.messageId = "<abc@x>" ∧
    ((saveEmailModel c9Cfg "cRow1" [] c9Email).map (fun r => r.attachmentsPath)) =
      [some ["w", "data", "attachments", "acct1", "cRow1"]] ∧
    writtenAttachmentPaths c9Cfg "cRow1" c9Email.attachments =
      [["w", "data", "attachments", "acct1", "cRow1", "report.pdf"]] ∧
    "cRow1" ≠ "<abc@x>" ∧
    "<abc@x>" ∉ (["w", "data", "attachments", "acct1", "cRow1", "report.pdf"] : List String) := by
  refine ⟨by decide, by decide, by decide, by decide, by decide⟩

/-- `saveAttachments` either writes nothing (returning `null`) or returns
the directory `{cwd}/{ATTACHMENTS_DIR}/{accountId}/{emailRowId}`. -/
theorem saveAttachmentsModel_dir (cfg : SyncConfig) (rowId : String)
    (atts : List AttachmentIn) :
    (saveAttachmentsModel cfg rowId atts).2 = none ∨
    (saveAttachmentsModel cfg rowId atts).2 =
      some (cfg.cwdSegs ++ cfg.baseSegs ++ [cfg.accountId, rowId]) := by
  simp only [saveAttachmentsModel]
  by_cases hempty : (savedFilesOf atts).isEmpty
  · left; rw [if_pos hempty]
  · right
    rw [if_neg hempty]
    rfl

/-- C9 (amended): every stored attachment payload is written at
`{cwd}/{ATTACHMENTS_DIR}/{accountId}/{rowId}/{sanitizedFilename}`, where
`rowId` is the freshly generated cuid primary key of the email row — not
the message's Message-ID-derived identifier — and the upserted row records
that directory (or no directory when nothing was written). -/
theorem C9_attachment_path_scoping :
    (∀ (cfg : SyncConfig) (rowId : String) (atts : List AttachmentIn),
      ∀ q ∈ writtenAttachmentPaths cfg rowId atts,
        ∃ a ∈ keptAttachments atts,
          q = cfg.cwdSegs ++ cfg.baseSegs ++
            [cfg.accountId, rowId, sanitizeFilename (a.filename.getD "")]) ∧
    (∀ (cfg : SyncConfig) (rowId : String) (atts : List AttachmentIn),
      (saveAttachmentsModel cfg rowId atts).2 = none ∨
      (saveAttachmentsModel cfg rowId atts).2 =
        some (cfg.cwdSegs ++ cfg.baseSegs ++ [cfg.accountId, rowId])) ∧
    (∀ (cfg : SyncConfig) (cuid : String) (store : EmailStore) (e : EmailData),
      ∃ path, saveEmailModel cfg cuid store e =
          insertOrReplace store (rowOfEmailData cuid e path) ∧
        (path = none ∨
          path = some (cfg.cwdSegs ++ cfg.baseSegs ++ [cfg.accountId, cuid]))) := by
  refine ⟨?_, ?_, ?_⟩
  · intro cfg rowId atts q hq
    rcases List.mem_map.1 hq with ⟨a, ha, rfl⟩
    exact ⟨a, ha, by simp [attachmentsDirSegs]⟩
  · exact saveAttachmentsModel_dir
  · intro cfg cuid store e
    refine ⟨if e.hasAttachments && !e.attachments.isEmpty then
        (saveAttachmentsModel cfg cuid e.attachments).2 else none, rfl, ?_⟩
    by_cases hatt : e.hasAttachments && !e.attachments.isEmpty
    · rw [if_pos hatt]
      exact saveAttachmentsModel_dir cfg cuid e.attachments
    · rw [if_neg hatt]
      exact .inl rfl

/-- Witness for `C9_attachment_path_scoping` at concrete inputs. -/
theorem C9_attachment_path_scoping_witness :
    (["w", "data", "attachments", "acct1", "cRow1", "report.pdf"] ∈
        writtenAttachmentPaths c9Cfg "cRow1" [c9Attachment] ∧
      ∃ a ∈ keptAttachments [c9Attachment],
        (["w", "data", "attachments", "acct1", "cRow1", "report.pdf"] : List String) =
          c9Cfg.cwdSegs ++ c9Cfg.baseSegs ++
            [c9Cfg.accountId, "cRow1", sanitizeFilename (a.filename.getD "")]) ∧
    ((saveAttachmentsModel c9Cfg "cRow1" [c9Attachment]).2 = none ∨
      (saveAttachmentsModel c9Cfg "cRow1" [c9Attachment]).2 =
        some (c9Cfg.cwdSegs ++ c9Cfg.baseSegs ++ [c9Cfg.accountId, "cRow1"])) ∧
    (∃ path, saveEmailModel c9Cfg "cRow1" [] c9Email =
        insertOrReplace [] (rowOfEmailData "cRow1" c9Email path) ∧
      (path = none ∨
        path = some (c9Cfg.cwdSegs ++ c9Cfg.baseSegs ++ [c9Cfg.accountId, "cRow1"]))) :=
  ⟨⟨by decide,
    C9_attachment_path_scoping.1 c9Cfg "cRow1" [c9Attachment]
      ["w", "data", "attachments", "acct1", "cRow1", "report.pdf"] (by decide)⟩,
    C9_attachment_path_scoping.2.1 c9Cfg "cRow1" [c9Attachment],
    C9_attachment_path_scoping.2.2 c9Cfg "cRow1" [] c9Email⟩

end MailVault

